import Mathlib

/-!
# Verification of the Indexa typed IndexedDB wrapper (src/indexa.ts)

This file gives a shallow embedding of the Indexa class: a typed access
layer over an asynchronous, transactional key-value storage engine
(IndexedDB).  The class state (the memoized connection promise and the
per-store subscriber registry) is an explicit `Indexa` structure; each
TypeScript method becomes a Lean function from that state to an outcome
record carrying the settled promise result, the post state, and the
notification cycles triggered.

The storage engine itself (IndexedDB) is not part of the repository; its
object-store semantics (key generation, key-path injection, key-ordered
traversal) are modelled from the spec where noted.
-/

deriving instance DecidableEq for Except

/-- A JSON-like field value stored in a record.  Enough structure to
distinguish records and express keys. -/
inductive JVal where
  | num (n : Nat)
  | str (s : String)
  deriving DecidableEq, Repr

/-- A record is an application-defined value object: a finite association
list from field names to values (mirroring a plain JS object). -/
abbrev Record := List (String × JVal)

/-- Field lookup on a record (JS property read). -/
def getField (r : Record) (f : String) : Option JVal :=
  match r with
  | [] => none
  | (g, w) :: rest => if g = f then some w else getField rest f

/-- Field write on a record (JS property assignment): replaces the field in
place if present, appends it otherwise. -/
def setField (r : Record) (f : String) (v : JVal) : Record :=
  match r with
  | [] => [(f, v)]
  | (g, w) :: rest => if g = f then (g, v) :: rest else (g, w) :: setField rest f v

/-- Structural deep equality of two records, field by field (the "deep-equal"
of the spec): every field name occurring in either record has the same value
in both. -/
def deepEqual (a b : Record) : Prop :=
  ∀ f ∈ (a.map Prod.fst ++ b.map Prod.fst), getField a f = getField b f

instance (a b : Record) : Decidable (deepEqual a b) :=
  List.decidableBAll _ _

/-- Errors reported by the storage engine (the `request.error` /
thrown-`DOMException` objects of IndexedDB). -/
inductive EngErr where
  | constraint   -- duplicate key on add (ConstraintError)
  | dataErr      -- no usable key for the value (DataError)
  | notFound     -- unknown store or index name (NotFoundError)
  | io           -- engine-level I/O failure
  | versionErr   -- open failure (e.g. version conflict)
  deriving DecidableEq, Repr

/-- The spec's §7 error-taxonomy kinds (`OpenError`, `TransactionError`,
`RequestError`, `BlockedError`). -/
inductive TaxKind where
  | openK
  | transactionK
  | requestK
  | blockedK
  deriving DecidableEq, Repr

/-- What a rejected promise carries.  The source code always rejects with
the raw engine error object (`reject(request.error)`), embedded as
`engineError`.  The `taxonomy` constructor follows the spec's §7 wording
("the engine's error object wrapped as the appropriate taxonomy kind") and
is declared only so that the wrapping claim can be compared against the
code; no operation in the source produces it.  `jsError` is a plain
`new Error(msg)` as thrown in `deleteDatabase`'s `onblocked` handler. -/
inductive RejErr where
  | engineError (e : EngErr)
  | taxonomy (k : TaxKind) (e : EngErr)
  | jsError (msg : String)
  deriving DecidableEq, Repr

/-- Whether a rejection value is a taxonomy wrapper (spec §7) rather than
the raw engine error. -/
def RejErr.isWrapped : RejErr → Bool
  | .taxonomy _ _ => true
  | _ => false

/-- Per-store schema entry (`StoreConfig` in the source). -/
structure StoreConfig where
  keyPath : String
  autoIncrement : Bool
  deriving DecidableEq, Repr

/-- Modelled from the spec: one engine object store.  The engine keeps
records in key order (per-store B-tree-like key-ordered storage, §1/§5);
`records` is the association list of (key, record) pairs and is read in
list order by `getAll` and cursors.  `nextKey` is the auto-increment key
generator (starts at 1).  `indexes` maps a secondary-index name to the
record field it indexes; indexes are pre-declared by external engine
configuration (§4.3), never created by this code. -/
structure ObjectStore where
  config : StoreConfig
  records : List (Nat × Record)
  nextKey : Nat
  indexes : List (String × String)
  deriving DecidableEq, Repr

/-- Keys currently present in a store. -/
def ObjectStore.keys (os : ObjectStore) : List Nat :=
  os.records.map Prod.fst

/-- Engine key lookup inside a store's record list. -/
def lookupKey (k : Nat) (l : List (Nat × Record)) : Option Record :=
  match l with
  | [] => none
  | (k0, v) :: rest => if k0 = k then some v else lookupKey k rest

/-- Whether a key is present (`store.getKey(key) !== undefined`). -/
def ObjectStore.hasKey (os : ObjectStore) (k : Nat) : Bool :=
  (lookupKey k os.records).isSome

/-- Modelled from the spec: insertion keeping the engine's ascending key
order; an equal key replaces the stored record (used by `put`). -/
def insertSorted (k : Nat) (v : Record) (l : List (Nat × Record)) : List (Nat × Record) :=
  match l with
  | [] => [(k, v)]
  | (k0, v0) :: rest =>
    if k < k0 then (k, v) :: (k0, v0) :: rest
    else if k = k0 then (k, v) :: rest
    else (k0, v0) :: insertSorted k v rest

/-- Modelled from the spec: the record actually stored by the engine for an
added value — the value itself when it carries its key at the key-path, or
the value with the generated key injected at the key-path (§3: "its key is
either an explicit field (key-path) or an engine-assigned auto-incrementing
integer"; the §8 scenario shows `{name:"Alice"}` stored as
`{id:1,name:"Alice"}`). -/
def storedForm (cfg : StoreConfig) (v : Record) (k : Nat) : Record :=
  match getField v cfg.keyPath with
  | some _ => v
  | none => setField v cfg.keyPath (JVal.num k)

/-- Modelled from the spec: the engine's `store.add(value)` request.
Determines the key (explicit in-line key at the key-path, or the generator
when absent and `autoIncrement`), fails with `ConstraintError` on a
duplicate key and `DataError` when no key can be determined, and otherwise
stores the (possibly key-injected) record in key order. -/
def ObjectStore.addRecord (os : ObjectStore) (v : Record) : Except EngErr (Nat × ObjectStore) :=
  match getField v os.config.keyPath with
  | some (JVal.num k) =>
    if os.hasKey k then .error .constraint
    else .ok (k, { os with records := insertSorted k v os.records,
                           nextKey := max os.nextKey (k + 1) })
  | some _ => .error .dataErr
  | none =>
    if os.config.autoIncrement then
      if os.hasKey os.nextKey then .error .constraint
      else
        .ok (os.nextKey,
             { os with records := insertSorted os.nextKey (setField v os.config.keyPath (JVal.num os.nextKey)) os.records,
                       nextKey := os.nextKey + 1 })
    else .error .dataErr

/-- Modelled from the spec: the engine's `store.put(value)` request —
insert-or-replace by the same key determination as `add`. -/
def ObjectStore.putRecord (os : ObjectStore) (v : Record) : Except EngErr (Nat × ObjectStore) :=
  match getField v os.config.keyPath with
  | some (JVal.num k) =>
    .ok (k, { os with records := insertSorted k v os.records,
                      nextKey := max os.nextKey (k + 1) })
  | some _ => .error .dataErr
  | none =>
    if os.config.autoIncrement then
      .ok (os.nextKey,
           { os with records := insertSorted os.nextKey (setField v os.config.keyPath (JVal.num os.nextKey)) os.records,
                     nextKey := os.nextKey + 1 })
    else .error .dataErr

/-- The engine's `store.delete(key)` request: removes the record with the
key if present; succeeds either way. -/
def ObjectStore.deleteKey (os : ObjectStore) (k : Nat) : ObjectStore :=
  { os with records := os.records.filter (fun p => p.1 ≠ k) }

/-- The engine's `store.clear()` request. -/
def ObjectStore.clearAll (os : ObjectStore) : ObjectStore :=
  { os with records := [] }

/-- Requests `store.add` issued for each value in order inside one transaction
(`values.map(value => store.add(value))` joined by `Promise.all`); the keys
come back index-aligned with the input.  A failing request aborts the
transaction (no `preventDefault` in the source), so the whole outcome is
the first error. -/
def ObjectStore.bulkAddRecords (os : ObjectStore) (vs : List Record) :
    Except EngErr (List Nat × ObjectStore) :=
  match vs with
  | [] => .ok ([], os)
  | v :: rest =>
    match os.addRecord v with
    | .error e => .error e
    | .ok (k, os') =>
      match os'.bulkAddRecords rest with
      | .error e => .error e
      | .ok (ks, os'') => .ok (k :: ks, os'')

/-- Requests `store.put` issued for each value in order inside one transaction. -/
def ObjectStore.bulkPutRecords (os : ObjectStore) (vs : List Record) :
    Except EngErr (List Nat × ObjectStore) :=
  match vs with
  | [] => .ok ([], os)
  | v :: rest =>
    match os.putRecord v with
    | .error e => .error e
    | .ok (k, os') =>
      match os'.bulkPutRecords rest with
      | .error e => .error e
      | .ok (ks, os'') => .ok (k :: ks, os'')

/-- Modelled from the spec: `store.index(name).getAll(query)` — the records
whose indexed field equals the query value, in store order; `NotFoundError`
when the index is not declared on the store. -/
def ObjectStore.indexGetAll (os : ObjectStore) (ixName : String) (q : JVal) :
    Except EngErr (List Record) :=
  match os.indexes.lookup ixName with
  | none => .error .notFound
  | some fld => .ok ((os.records.map Prod.snd).filter (fun r => getField r fld == some q))

/-- The engine database handle: the named object stores it holds. -/
structure DB where
  stores : List (String × ObjectStore)
  deriving DecidableEq, Repr

/-- Store lookup by name (list helper). -/
def findStoreList (l : List (String × ObjectStore)) (s : String) : Option ObjectStore :=
  match l with
  | [] => none
  | (n, os) :: rest => if n = s then some os else findStoreList rest s

/-- The call `db.transaction(storeName, mode).objectStore(storeName)`:
obtains the store, or fails (`NotFoundError` thrown by the engine) when
the store does not exist. -/
def DB.findStore (db : DB) (s : String) : Option ObjectStore :=
  findStoreList db.stores s

/-- Writes back the mutated store handle's contents (list helper). -/
def setStoreList (l : List (String × ObjectStore)) (s : String) (os : ObjectStore) :
    List (String × ObjectStore) :=
  match l with
  | [] => [(s, os)]
  | (n, o) :: rest => if n = s then (n, os) :: rest else (n, o) :: setStoreList rest s os

/-- Writes back the mutated store handle's contents. -/
def DB.setStore (db : DB) (s : String) (os : ObjectStore) : DB :=
  ⟨setStoreList db.stores s os⟩

/-- A registered change listener.  `id` stands for the function object's
reference identity (the `===` used by `unsubscribe`'s `indexOf`); `throws`
records whether invoking it throws. -/
structure Listener where
  id : Nat
  throws : Bool
  deriving DecidableEq, Repr

/-- The `Indexa` instance state: the memoized connection promise
(`this.dbPromise`, settled: an open handle or the permanent open failure)
and the per-store subscriber registry (`this.subscribers`). -/
structure Indexa where
  dbName : String
  dbVersion : Nat
  schema : List (String × StoreConfig)
  dbPromise : Except EngErr DB
  subscribers : List (String × List Listener)
  deriving DecidableEq, Repr

/-- Handler `onupgradeneeded`: create every schema store that does not already
exist (`keyPath`/`autoIncrement` from the config); pre-existing stores are
left untouched. -/
def createMissingStores (schema : List (String × StoreConfig)) (db : DB) : DB :=
  match schema with
  | [] => db
  | (n, cfg) :: rest =>
    createMissingStores rest
      (match db.findStore n with
       | some _ => db
       | none => ⟨db.stores ++ [(n, { config := cfg, records := [], nextKey := 1, indexes := [] })]⟩)

/-- Method `private init()`: issues `indexedDB.open(name, version)`.  The engine's
outcome is an environment parameter: an upgrade event (with the
pre-existing database contents) on which the schema stores are created, a
plain success, or an open error that rejects the promise. -/
inductive OpenOutcome where
  | upgrade (existing : DB)
  | success (db : DB)
  | failure (e : EngErr)

def Indexa.init (schema : List (String × StoreConfig)) : OpenOutcome → Except EngErr DB
  | .upgrade existing => .ok (createMissingStores schema existing)
  | .success db => .ok db
  | .failure e => .error e

/-- The constructor: stores identity and schema and computes `dbPromise`
exactly once via `init`. -/
def mkIndexa (name : String) (version : Nat) (schema : List (String × StoreConfig))
    (engine : OpenOutcome) : Indexa :=
  { dbName := name, dbVersion := version, schema := schema,
    dbPromise := Indexa.init schema engine, subscribers := [] }

/-- Registry lookup by store name (list helper; an absent entry reads as
empty). -/
def lookupSubs (l : List (String × List Listener)) (s : String) : List Listener :=
  match l with
  | [] => []
  | (n, ls) :: rest => if n = s then ls else lookupSubs rest s

/-- The listeners currently registered for a store
(`this.subscribers[storeName]`, absent entry read as empty). -/
def Indexa.subsOf (st : Indexa) (s : String) : List Listener :=
  lookupSubs st.subscribers s

/-- One notification cycle's observable log: how many fresh `getAll` reads
the cycle performed, the snapshot it read, and the deliveries actually made
(listener identity paired with the array handed to it), in order. -/
structure NotifyLog where
  reads : Nat
  snapshot : List Record
  calls : List (Nat × List Record)
  deriving DecidableEq, Repr

/-- The loop `forEach((cb) => cb(data))` over the registered listeners: each is
invoked in registration order with the snapshot; a throwing listener runs
(so it is delivered to) but the exception aborts the `forEach`, so the
remaining listeners are not invoked. -/
def deliverAll (ls : List Listener) (data : List Record) : List (Nat × List Record) :=
  match ls with
  | [] => []
  | l :: rest => if l.throws then [(l.id, data)] else (l.id, data) :: deliverAll rest data

/-- The current full contents of a store as `getAll` would return them
(values in the engine's key order); empty when unreadable. -/
def Indexa.snapshotOf (st : Indexa) (s : String) : List Record :=
  match st.dbPromise with
  | .error _ => []
  | .ok db =>
    match db.findStore s with
    | none => []
    | some os => os.records.map Prod.snd

/-- Method `private async notify(storeName)`: unconditionally performs one fresh
`getAll` of the store, then delivers the snapshot to each registered
listener via `forEach`.  The cycle's promise is never awaited by the
triggering operation, so a listener's exception never reaches that
operation's caller. -/
def Indexa.runNotify (st : Indexa) (s : String) : NotifyLog :=
  { reads := 1, snapshot := st.snapshotOf s,
    calls := deliverAll (st.subsOf s) (st.snapshotOf s) }

/-- The settled observable outcome of one operation call: the result its
promise settles with, the instance state afterwards, and the notification
cycles it triggered (one log per `notify` call). -/
structure MutOut (α : Type) where
  result : Except RejErr α
  post : Indexa
  logs : List NotifyLog

/-- The shared shape of every mutating method: await `this.dbPromise`
(propagating the memoized open failure), obtain the store via
`this.transaction(storeName, "readwrite")` (the engine throws on an unknown
store), issue the request — `fault` injects an engine-reported request
error (`request.onerror` fires and the method does `reject(request.error)`)
— and on `request.onsuccess` write back the store, call `this.notify`, and
resolve. -/
def mutate {α : Type} (st : Indexa) (s : String) (fault : Option EngErr)
    (f : ObjectStore → Except EngErr (α × ObjectStore)) : MutOut α :=
  match st.dbPromise with
  | .error e => ⟨.error (.engineError e), st, []⟩
  | .ok db =>
    match db.findStore s with
    | none => ⟨.error (.engineError .notFound), st, []⟩
    | some os =>
      match fault with
      | some e => ⟨.error (.engineError e), st, []⟩
      | none =>
        match f os with
        | .error e => ⟨.error (.engineError e), st, []⟩
        | .ok (a, os') =>
          let st' : Indexa := { st with dbPromise := .ok (db.setStore s os') }
          ⟨.ok a, st', [st'.runNotify s]⟩

/-- The shared shape of every read-only method: await `this.dbPromise`,
obtain the store via `this.transaction(storeName)` and issue one request;
no notification, no state change. -/
def readOp {α : Type} (st : Indexa) (s : String) (fault : Option EngErr)
    (f : ObjectStore → Except EngErr α) : MutOut α :=
  match st.dbPromise with
  | .error e => ⟨.error (.engineError e), st, []⟩
  | .ok db =>
    match db.findStore s with
    | none => ⟨.error (.engineError .notFound), st, []⟩
    | some os =>
      match fault with
      | some e => ⟨.error (.engineError e), st, []⟩
      | none =>
        match f os with
        | .error e => ⟨.error (.engineError e), st, []⟩
        | .ok a => ⟨.ok a, st, []⟩

/-- Method `async add(storeName, value)`: one `store.add` request; resolves with
the assigned key after notifying. -/
def Indexa.add (st : Indexa) (s : String) (v : Record) (fault : Option EngErr) : MutOut Nat :=
  mutate st s fault (fun os => os.addRecord v)

/-- Method `async get(storeName, key)`: one `store.get` request; resolves with the
record or the not-found sentinel (`none` for `undefined`). -/
def Indexa.get (st : Indexa) (s : String) (k : Nat) (fault : Option EngErr) :
    MutOut (Option Record) :=
  readOp st s fault (fun os => .ok (lookupKey k os.records))

/-- Method `async getAll(storeName)`: one `store.getAll` request; resolves with
all records in key order. -/
def Indexa.getAll (st : Indexa) (s : String) (fault : Option EngErr) :
    MutOut (List Record) :=
  readOp st s fault (fun os => .ok (os.records.map Prod.snd))

/-- Method `async update(storeName, value)`: one `store.put` request; resolves
with the upserted key after notifying. -/
def Indexa.update (st : Indexa) (s : String) (v : Record) (fault : Option EngErr) : MutOut Nat :=
  mutate st s fault (fun os => os.putRecord v)

/-- Method `async delete(storeName, key)`: one `store.delete` request; resolves
with no value after notifying. -/
def Indexa.delete (st : Indexa) (s : String) (k : Nat) (fault : Option EngErr) : MutOut Unit :=
  mutate st s fault (fun os => .ok ((), os.deleteKey k))

/-- Method `async clear(storeName)`: one `store.clear` request; resolves with no
value after notifying. -/
def Indexa.clear (st : Indexa) (s : String) (fault : Option EngErr) : MutOut Unit :=
  mutate st s fault (fun os => .ok ((), os.clearAll))

/-- Method `async getByIndex(storeName, indexName, query)`: obtains the index and
issues its `getAll(query)` request. -/
def Indexa.getByIndex (st : Indexa) (s : String) (ixName : String) (q : JVal)
    (fault : Option EngErr) : MutOut (List Record) :=
  readOp st s fault (fun os => os.indexGetAll ixName q)

/-- Method `async count(storeName)`: one `store.count` request. -/
def Indexa.count (st : Indexa) (s : String) (fault : Option EngErr) : MutOut Nat :=
  readOp st s fault (fun os => .ok os.records.length)

/-- Method `async exists(storeName, key)`: a `store.getKey` request; resolves with
whether the returned key is defined. -/
def Indexa.existsKey (st : Indexa) (s : String) (k : Nat) (fault : Option EngErr) :
    MutOut Bool :=
  readOp st s fault (fun os => .ok (os.hasKey k))

/-- Method `async bulkAdd(storeName, values)`: all `store.add` requests issued in
one transaction, results joined by `Promise.all`; on joint success `notify`
is called once and the promise resolves with the index-aligned keys. -/
def Indexa.bulkAdd (st : Indexa) (s : String) (vs : List Record) (fault : Option EngErr) :
    MutOut (List Nat) :=
  mutate st s fault (fun os => os.bulkAddRecords vs)

/-- Method `async bulkUpdate(storeName, values)`: all `store.put` requests issued
in one transaction, joined by `Promise.all`; one `notify` on joint
success. -/
def Indexa.bulkUpdate (st : Indexa) (s : String) (vs : List Record) (fault : Option EngErr) :
    MutOut (List Nat) :=
  mutate st s fault (fun os => os.bulkPutRecords vs)

/-- Method `async iterate(storeName, callback)`: opens a cursor and invokes the
callback once per record, continuing until the cursor is exhausted.  The
result value is the callback's invocation trace, each element the
`(value, key)` pair of one invocation, in cursor (key) order. -/
def Indexa.iterate (st : Indexa) (s : String) (fault : Option EngErr) :
    MutOut (List (Record × Nat)) :=
  readOp st s fault (fun os => .ok (os.records.map (fun p => (p.2, p.1))))

/-- Appends a listener for a store in the registry (`push`). -/
def pushSub (subs : List (String × List Listener)) (s : String) (c : Listener) :
    List (String × List Listener) :=
  match subs with
  | [] => [(s, [c])]
  | (n, ls) :: rest => if n = s then (n, ls ++ [c]) :: rest else (n, ls) :: pushSub rest s c

/-- Removes the first occurrence of a listener reference (`indexOf` +
`splice(idx, 1)`); a miss is a no-op. -/
def removeFirst (c : Listener) (ls : List Listener) : List Listener :=
  match ls with
  | [] => []
  | l :: rest => if l = c then rest else l :: removeFirst c rest

def removeSub (subs : List (String × List Listener)) (s : String) (c : Listener) :
    List (String × List Listener) :=
  match subs with
  | [] => []
  | (n, ls) :: rest => if n = s then (n, removeFirst c ls) :: rest else (n, ls) :: removeSub rest s c

/-- Method `subscribe(storeName, callback)`: pushes the callback onto the store's
registry entry (created on first use) and immediately delivers the current
snapshot to it (`this.getAll(storeName).then(callback)`); the initial
delivery happens only if that `getAll` succeeds. -/
def Indexa.subscribe (st : Indexa) (s : String) (c : Listener) :
    Indexa × Option (Nat × List Record) :=
  let st' : Indexa := { st with subscribers := pushSub st.subscribers s c }
  (st',
    match st'.dbPromise with
    | .error _ => none
    | .ok db =>
      match db.findStore s with
      | none => none
      | some os => some (c.id, os.records.map Prod.snd))

/-- Method `unsubscribe(storeName, callback)`: removes the first matching listener
reference from the store's entry; absent entry or listener is a no-op. -/
def Indexa.unsubscribe (st : Indexa) (s : String) (c : Listener) : Indexa :=
  { st with subscribers := removeSub st.subscribers s c }

/-- Method `async close()`: awaits `this.dbPromise` (propagating the open
failure) and closes the handle. -/
def Indexa.close (st : Indexa) : Except RejErr Unit :=
  match st.dbPromise with
  | .error e => .error (.engineError e)
  | .ok _ => .ok ()

/-- Method `async deleteDatabase()`: awaits `close()` first — its rejection
prevents the engine's `deleteDatabase` request from ever being issued —
then issues the request, whose `onblocked` handler rejects with a plain
`Error("Delete blocked")`.  The returned flag records whether the engine
request was issued. -/
def Indexa.deleteDatabase (st : Indexa) (blocked : Bool) (fault : Option EngErr) :
    Except RejErr Unit × Bool :=
  match st.close with
  | .error e => (.error e, false)
  | .ok () =>
    if blocked then (.error (.jsError "Delete blocked"), true)
    else
      match fault with
      | some e => (.error (.engineError e), true)
      | none => (.ok (), true)

/-- Well-formedness of an engine store: records strictly ascending by key
(hence keys distinct) and the generator strictly beyond every present key. -/
def ObjectStore.wf (os : ObjectStore) : Prop :=
  os.keys.Pairwise (· < ·) ∧ ∀ k ∈ os.keys, k < os.nextKey

instance (os : ObjectStore) : Decidable os.wf := by
  unfold ObjectStore.wf
  infer_instance

/-! ## Concrete fixtures used by counterexamples and witnesses -/

/-- The spec §8 scenario schema: a `users` store with key-path `id` and
auto-increment keys. -/
def usersCfg : StoreConfig := { keyPath := "id", autoIncrement := true }

/-- An empty `users` store, generator at 1. -/
def usersStore0 : ObjectStore :=
  { config := usersCfg, records := [], nextKey := 1, indexes := [] }

def db0 : DB := ⟨[("users", usersStore0)]⟩

/-- A freshly constructed instance over an empty `users` store, no
subscribers. -/
def idx0 : Indexa :=
  { dbName := "app", dbVersion := 1, schema := [("users", usersCfg)],
    dbPromise := .ok db0, subscribers := [] }

def alice : Record := [("name", JVal.str "Alice")]

def bobV : Record := [("name", JVal.str "Bob")]

/-- The instance after `add("users", alice)`: the store holds record 1. -/
def idx1 : Indexa := (idx0.add "users" alice none).post

/-- An instance whose first registered users listener throws and whose
second does not. -/
def idxThrow : Indexa :=
  { idx1 with subscribers := [("users", [⟨1, true⟩, ⟨2, false⟩])] }

/-- An instance whose initial open failed permanently. -/
def idxFail : Indexa := mkIndexa "app" 1 [("users", usersCfg)] (.failure .versionErr)

/-- The record the engine stores for `alice` under generated key 1 (key
injected at the key-path). -/
def aliceStored : Record := [("name", JVal.str "Alice"), ("id", JVal.num 1)]

/-- The `users` store after the first add: one record, generator at 2. -/
def usersStore1 : ObjectStore :=
  { config := usersCfg, records := [(1, aliceStored)], nextKey := 2, indexes := [] }

def db1 : DB := ⟨[("users", usersStore1)]⟩

/-- A value carrying an in-line key that collides with record 1. -/
def dupV : Record := [("id", JVal.num 1), ("name", JVal.str "Zed")]

/-- A value carrying its own in-line key 5. -/
def eveV : Record := [("id", JVal.num 5), ("name", JVal.str "Eve")]

/-- The `users` store after adding `eveV` to the empty store. -/
def eveStore : ObjectStore :=
  { config := usersCfg, records := [(5, eveV)], nextKey := 6, indexes := [] }

/-- The one-record instance with a single well-behaved users listener. -/
def idxCalm : Indexa := { idx1 with subscribers := [("users", [⟨7, false⟩])] }

/-- The one-record instance with the same listener registered twice. -/
def idxDup : Indexa := { idx1 with subscribers := [("users", [⟨7, false⟩, ⟨7, false⟩])] }

/-- Total number of snapshot reads performed by the notification path of
one operation call. -/
def totalNotifyReads {α : Type} (m : MutOut α) : Nat :=
  (m.logs.map NotifyLog.reads).sum

/-! ## Helper lemmas about the engine-store primitives -/

theorem lookupKey_insertSorted_self (k : Nat) (v : Record) (l : List (Nat × Record)) :
    lookupKey k (insertSorted k v l) = some v := by
  induction l with
  | nil => simp [insertSorted, lookupKey]
  | cons hd tl ih =>
    obtain ⟨k0, v0⟩ := hd
    by_cases h1 : k < k0
    · simp [insertSorted, h1, lookupKey]
    · by_cases h2 : k = k0
      · simp [insertSorted, h1, h2, lookupKey]
      · have h3 : k0 ≠ k := fun h => h2 h.symm
        simp [insertSorted, h1, h2, lookupKey, h3, ih]

theorem mem_keys_insertSorted (k0 k : Nat) (v : Record) (l : List (Nat × Record)) :
    k0 ∈ (insertSorted k v l).map Prod.fst ↔ k0 = k ∨ k0 ∈ l.map Prod.fst := by
  induction l with
  | nil => simp [insertSorted]
  | cons hd tl ih =>
    obtain ⟨k1, v1⟩ := hd
    by_cases h1 : k < k1
    · simp [insertSorted, h1]
    · by_cases h2 : k = k1
      · subst h2
        simp [insertSorted, h1]
      · simp only [insertSorted, if_neg h1, if_neg h2, List.map_cons, List.mem_cons, ih]
        tauto

theorem lookupKey_eq_none_of_bound (n : Nat) (l : List (Nat × Record))
    (h : ∀ k ∈ l.map Prod.fst, k < n) : lookupKey n l = none := by
  induction l with
  | nil => rfl
  | cons hd tl ih =>
    obtain ⟨k0, v0⟩ := hd
    have hk0 : k0 < n := h k0 (by simp)
    have hne : k0 ≠ n := Nat.ne_of_lt hk0
    simpa [lookupKey, hne] using ih (fun k hk => h k (by simp [hk]))

theorem filter_ne_of_absent (k : Nat) (l : List (Nat × Record))
    (h : lookupKey k l = none) : l.filter (fun p => p.1 ≠ k) = l := by
  induction l with
  | nil => rfl
  | cons hd tl ih =>
    obtain ⟨k0, v0⟩ := hd
    by_cases hk : k0 = k
    · simp [lookupKey, hk] at h
    · simp only [lookupKey, if_neg hk] at h
      rw [List.filter_cons_of_pos (by simp [hk]), ih h]

/-- A delete of an absent key removes nothing (engine no-op delete). -/
theorem deleteKey_absent (os : ObjectStore) (k : Nat)
    (h : lookupKey k os.records = none) : os.deleteKey k = os := by
  unfold ObjectStore.deleteKey
  rw [filter_ne_of_absent k os.records h]

/-! ## Helper lemmas about registry and delivery -/

theorem deliverAll_no_throw (ls : List Listener) (d : List Record)
    (h : ∀ l ∈ ls, l.throws = false) :
    deliverAll ls d = ls.map (fun l => (l.id, d)) := by
  induction ls with
  | nil => rfl
  | cons hd tl ih =>
    have hh : hd.throws = false := h hd (by simp)
    simp [deliverAll, hh, ih (fun l hl => h l (by simp [hl]))]

theorem deliverAll_throw_split (pre post : List Listener) (t : Listener) (d : List Record)
    (hpre : ∀ l ∈ pre, l.throws = false) (ht : t.throws = true) :
    deliverAll (pre ++ t :: post) d = pre.map (fun l => (l.id, d)) ++ [(t.id, d)] := by
  induction pre with
  | nil => simp [deliverAll, ht]
  | cons hd tl ih =>
    have hh : hd.throws = false := hpre hd (by simp)
    simp [deliverAll, hh, ih (fun l hl => hpre l (by simp [hl]))]

theorem removeFirst_replicate (c : Listener) (n : Nat) :
    removeFirst c (List.replicate (n + 1) c) = List.replicate n c := by
  simp [List.replicate_succ, removeFirst]

theorem lookupSubs_pushSub (subs : List (String × List Listener)) (s : String) (c : Listener) :
    lookupSubs (pushSub subs s c) s = lookupSubs subs s ++ [c] := by
  induction subs with
  | nil => simp [pushSub, lookupSubs]
  | cons hd tl ih =>
    obtain ⟨n, ls⟩ := hd
    by_cases h : n = s
    · simp [pushSub, lookupSubs, h]
    · simp [pushSub, lookupSubs, h, ih]

theorem lookupSubs_removeSub (subs : List (String × List Listener)) (s : String) (c : Listener) :
    lookupSubs (removeSub subs s c) s = removeFirst c (lookupSubs subs s) := by
  induction subs with
  | nil => simp [removeSub, lookupSubs, removeFirst]
  | cons hd tl ih =>
    obtain ⟨n, ls⟩ := hd
    by_cases h : n = s
    · simp [removeSub, lookupSubs, h]
    · simp [removeSub, lookupSubs, h, ih]

theorem findStoreList_setStoreList (l : List (String × ObjectStore)) (s : String)
    (os : ObjectStore) : findStoreList (setStoreList l s os) s = some os := by
  induction l with
  | nil => simp [setStoreList, findStoreList]
  | cons hd tl ih =>
    obtain ⟨n, o⟩ := hd
    by_cases h : n = s
    · simp [setStoreList, findStoreList, h]
    · simp [setStoreList, findStoreList, h, ih]

theorem findStore_setStore (db : DB) (s : String) (os : ObjectStore) :
    (db.setStore s os).findStore s = some os := by
  simp [DB.setStore, DB.findStore, findStoreList_setStoreList]

/-- A successful `add` stores exactly the (possibly key-injected) record
under the assigned key, keeping key order. -/
theorem addRecord_ok_records (os : ObjectStore) (v : Record) (k : Nat) (os' : ObjectStore)
    (h : os.addRecord v = .ok (k, os')) :
    os'.records = insertSorted k (storedForm os.config v k) os.records := by
  cases hf : getField v os.config.keyPath with
  | some w =>
    cases w with
    | num k0 =>
      simp only [ObjectStore.addRecord, hf] at h
      by_cases hk : os.hasKey k0
      · simp [hk] at h
      · simp only [hk, Bool.false_eq_true, if_false, Except.ok.injEq, Prod.mk.injEq] at h
        obtain ⟨rfl, rfl⟩ := h
        simp [storedForm, hf]
    | str s0 =>
      simp [ObjectStore.addRecord, hf] at h
  | none =>
    simp only [ObjectStore.addRecord, hf] at h
    by_cases hauto : os.config.autoIncrement
    · simp only [hauto, if_true] at h
      by_cases hk : os.hasKey os.nextKey
      · simp [hk] at h
      · simp only [hk, Bool.false_eq_true, if_false, Except.ok.injEq, Prod.mk.injEq] at h
        obtain ⟨rfl, rfl⟩ := h
        simp [storedForm, hf]
    · simp [hauto] at h

/-- A successful `add` of a value that already carries its in-line key
assigns exactly that key. -/
theorem addRecord_ok_key (os : ObjectStore) (v : Record) (k k0 : Nat) (os' : ObjectStore)
    (h : os.addRecord v = .ok (k, os'))
    (hf : getField v os.config.keyPath = some (JVal.num k0)) : k = k0 := by
  simp only [ObjectStore.addRecord, hf] at h
  by_cases hk : os.hasKey k0
  · simp [hk] at h
  · simp only [hk, Bool.false_eq_true, if_false, Except.ok.injEq, Prod.mk.injEq] at h
    exact h.1.symm

/-- Bulk insertion of key-less values into an auto-increment store with a
fresh generator succeeds and assigns the consecutive generator keys, one
per value, index-aligned. -/
theorem bulkAddRecords_fresh (vs : List Record) (os : ObjectStore)
    (hauto : os.config.autoIncrement = true)
    (hbound : ∀ k ∈ os.keys, k < os.nextKey)
    (hfresh : ∀ v ∈ vs, getField v os.config.keyPath = none) :
    ∃ osF, os.bulkAddRecords vs = .ok (List.range' os.nextKey vs.length, osF) := by
  induction vs generalizing os with
  | nil => exact ⟨os, by simp [ObjectStore.bulkAddRecords]⟩
  | cons v rest ih =>
    have hv : getField v os.config.keyPath = none := hfresh v (by simp)
    have hnk : lookupKey os.nextKey os.records = none :=
      lookupKey_eq_none_of_bound _ _ hbound
    have hhk : os.hasKey os.nextKey = false := by
      simp [ObjectStore.hasKey, hnk]
    have hadd : os.addRecord v =
        .ok (os.nextKey,
             { os with
               records := insertSorted os.nextKey
                 (setField v os.config.keyPath (JVal.num os.nextKey)) os.records,
               nextKey := os.nextKey + 1 }) := by
      simp [ObjectStore.addRecord, hv, hauto, hhk]
    have hb1 : ∀ k ∈ ({ os with
        records := insertSorted os.nextKey
          (setField v os.config.keyPath (JVal.num os.nextKey)) os.records,
        nextKey := os.nextKey + 1 } : ObjectStore).keys, k < os.nextKey + 1 := by
      intro k hk
      rcases (mem_keys_insertSorted k os.nextKey _ os.records).1 hk with h | h
      · omega
      · have := hbound k h
        omega
    obtain ⟨osF, hF⟩ := ih { os with
        records := insertSorted os.nextKey
          (setField v os.config.keyPath (JVal.num os.nextKey)) os.records,
        nextKey := os.nextKey + 1 }
      hauto hb1 (fun v' hv' => hfresh v' (by simp [hv']))
    refine ⟨osF, ?_⟩
    simp only [ObjectStore.bulkAddRecords, hadd, hF]
    simp [List.range'_succ]

/-! ## Unfolding lemmas for the shared operation shapes -/

theorem mutate_open_failure {α : Type} (st : Indexa) (s : String) (fault : Option EngErr)
    (f : ObjectStore → Except EngErr (α × ObjectStore)) (e : EngErr)
    (hdb : st.dbPromise = .error e) :
    mutate st s fault f = ⟨.error (.engineError e), st, []⟩ := by
  simp [mutate, hdb]

theorem readOp_open_failure {α : Type} (st : Indexa) (s : String) (fault : Option EngErr)
    (f : ObjectStore → Except EngErr α) (e : EngErr)
    (hdb : st.dbPromise = .error e) :
    readOp st s fault f = ⟨.error (.engineError e), st, []⟩ := by
  simp [readOp, hdb]

theorem mutate_fault {α : Type} (st : Indexa) (s : String)
    (f : ObjectStore → Except EngErr (α × ObjectStore)) (db : DB) (os : ObjectStore)
    (e : EngErr) (hdb : st.dbPromise = .ok db) (hstore : db.findStore s = some os) :
    mutate st s (some e) f = ⟨.error (.engineError e), st, []⟩ := by
  simp [mutate, hdb, hstore]

theorem readOp_fault {α : Type} (st : Indexa) (s : String)
    (f : ObjectStore → Except EngErr α) (db : DB) (os : ObjectStore)
    (e : EngErr) (hdb : st.dbPromise = .ok db) (hstore : db.findStore s = some os) :
    readOp st s (some e) f = ⟨.error (.engineError e), st, []⟩ := by
  simp [readOp, hdb, hstore]

theorem mutate_ok {α : Type} (st : Indexa) (s : String)
    (f : ObjectStore → Except EngErr (α × ObjectStore)) (db : DB) (os : ObjectStore)
    (a : α) (os' : ObjectStore)
    (hdb : st.dbPromise = .ok db) (hstore : db.findStore s = some os)
    (hf : f os = .ok (a, os')) :
    mutate st s none f =
      ⟨.ok a, { st with dbPromise := .ok (db.setStore s os') },
        [Indexa.runNotify { st with dbPromise := .ok (db.setStore s os') } s]⟩ := by
  simp [mutate, hdb, hstore, hf]

theorem mutate_request_error {α : Type} (st : Indexa) (s : String)
    (f : ObjectStore → Except EngErr (α × ObjectStore)) (db : DB) (os : ObjectStore)
    (e : EngErr) (hdb : st.dbPromise = .ok db) (hstore : db.findStore s = some os)
    (hf : f os = .error e) :
    mutate st s none f = ⟨.error (.engineError e), st, []⟩ := by
  simp [mutate, hdb, hstore, hf]

theorem readOp_ok {α : Type} (st : Indexa) (s : String)
    (f : ObjectStore → Except EngErr α) (db : DB) (os : ObjectStore) (a : α)
    (hdb : st.dbPromise = .ok db) (hstore : db.findStore s = some os)
    (hf : f os = .ok a) :
    readOp st s none f = ⟨.ok a, st, []⟩ := by
  simp [readOp, hdb, hstore, hf]

theorem readOp_request_error {α : Type} (st : Indexa) (s : String)
    (f : ObjectStore → Except EngErr α) (db : DB) (os : ObjectStore) (e : EngErr)
    (hdb : st.dbPromise = .ok db) (hstore : db.findStore s = some os)
    (hf : f os = .error e) :
    readOp st s none f = ⟨.error (.engineError e), st, []⟩ := by
  simp [readOp, hdb, hstore, hf]

/-- The notification cycle's log, unfolded. -/
theorem runNotify_eq (st : Indexa) (s : String) :
    st.runNotify s = ⟨1, st.snapshotOf s, deliverAll (st.subsOf s) (st.snapshotOf s)⟩ := rfl

/-- The registry is untouched by a write-back of a store's contents. -/
theorem subsOf_setDb (st : Indexa) (d : Except EngErr DB) (s : String) :
    Indexa.subsOf { st with dbPromise := d } s = st.subsOf s := rfl

/-- Reading a store's snapshot right after writing that store back yields
the written contents. -/
theorem snapshotOf_setStore (st : Indexa) (db : DB) (s : String) (os' : ObjectStore) :
    Indexa.snapshotOf { st with dbPromise := .ok (db.setStore s os') } s
      = os'.records.map Prod.snd := by
  simp [Indexa.snapshotOf, findStore_setStore]

/-- Deep equality is reflexive. -/
theorem deepEqual_refl (a : Record) : deepEqual a a := fun _ _ => rfl

/-- The mutating shape on an unknown store rejects with the engine's raw
NotFoundError. -/
theorem mutate_store_missing {α : Type} (st : Indexa) (s : String) (fault : Option EngErr)
    (f : ObjectStore → Except EngErr (α × ObjectStore)) (db : DB)
    (hdb : st.dbPromise = .ok db) (hstore : db.findStore s = none) :
    mutate st s fault f = ⟨.error (.engineError .notFound), st, []⟩ := by
  simp [mutate, hdb, hstore]

/-- The read-only shape on an unknown store rejects with the engine's raw
NotFoundError. -/
theorem readOp_store_missing {α : Type} (st : Indexa) (s : String) (fault : Option EngErr)
    (f : ObjectStore → Except EngErr α) (db : DB)
    (hdb : st.dbPromise = .ok db) (hstore : db.findStore s = none) :
    readOp st s fault f = ⟨.error (.engineError .notFound), st, []⟩ := by
  simp [readOp, hdb, hstore]

/-- Every successful call through the mutating shape performs exactly one
snapshot read in its notification path; a failed call performs none. -/
theorem mutate_totalReads {α : Type} (st : Indexa) (s : String) (fault : Option EngErr)
    (f : ObjectStore → Except EngErr (α × ObjectStore)) :
    totalNotifyReads (mutate st s fault f) =
      (if (mutate st s fault f).result.isOk then 1 else 0) := by
  cases hdb : st.dbPromise with
  | error e =>
    rw [mutate_open_failure st s fault f e hdb]
    simp [totalNotifyReads, Except.isOk, Except.toBool]
  | ok db =>
    cases hs : db.findStore s with
    | none =>
      rw [mutate_store_missing st s fault f db hdb hs]
      simp [totalNotifyReads, Except.isOk, Except.toBool]
    | some os =>
      cases fault with
      | some e =>
        rw [mutate_fault st s f db os e hdb hs]
        simp [totalNotifyReads, Except.isOk, Except.toBool]
      | none =>
        cases hf : f os with
        | error e =>
          rw [mutate_request_error st s f db os e hdb hs hf]
          simp [totalNotifyReads, Except.isOk, Except.toBool]
        | ok p =>
          rw [mutate_ok st s f db os p.1 p.2 hdb hs (by rw [hf])]
          simp [totalNotifyReads, Except.isOk, Except.toBool, Indexa.runNotify]

/-- With no listener registered for the store, no notification delivery is
made by any call through the mutating shape. -/
theorem mutate_calls_empty {α : Type} (st : Indexa) (s : String) (fault : Option EngErr)
    (f : ObjectStore → Except EngErr (α × ObjectStore)) (hsub : st.subsOf s = []) :
    ∀ lg ∈ (mutate st s fault f).logs, lg.calls = [] := by
  cases hdb : st.dbPromise with
  | error e =>
    rw [mutate_open_failure st s fault f e hdb]
    intro lg hlg
    simp at hlg
  | ok db =>
    cases hs : db.findStore s with
    | none =>
      rw [mutate_store_missing st s fault f db hdb hs]
      intro lg hlg
      simp at hlg
    | some os =>
      cases fault with
      | some e =>
        rw [mutate_fault st s f db os e hdb hs]
        intro lg hlg
        simp at hlg
      | none =>
        cases hf : f os with
        | error e =>
          rw [mutate_request_error st s f db os e hdb hs hf]
          intro lg hlg
          simp at hlg
        | ok p =>
          rw [mutate_ok st s f db os p.1 p.2 hdb hs (by rw [hf])]
          intro lg hlg
          simp at hlg
          subst hlg
          have h2 : Indexa.subsOf { st with dbPromise := .ok (db.setStore s p.2) } s = [] := hsub
          simp [Indexa.runNotify, h2, deliverAll]

/-! ## Claim C5 — memoized connection promise -/

/-- C5: The connection promise is computed exactly once at construction
(`this.dbPromise = this.init()`) and memoized; every operation awaits that
same settled promise.  Consequently, when the initial open failed with `e`,
every operation — add, get, getAll, update, delete, clear, getByIndex,
count, exists, bulkAdd, bulkUpdate, iterate, close — rejects with that same
raw failure `e`, leaves the instance (and its memoized promise) unchanged,
and triggers no notification: the open is never retried. -/
theorem C5_connection_memoized (st : Indexa) (e : EngErr)
    (hdb : st.dbPromise = .error e) :
    (∀ name ver sch, (mkIndexa name ver sch (.failure e)).dbPromise = .error e) ∧
    (∀ s v fault, st.add s v fault = ⟨.error (.engineError e), st, []⟩) ∧
    (∀ s k fault, st.get s k fault = ⟨.error (.engineError e), st, []⟩) ∧
    (∀ s fault, st.getAll s fault = ⟨.error (.engineError e), st, []⟩) ∧
    (∀ s v fault, st.update s v fault = ⟨.error (.engineError e), st, []⟩) ∧
    (∀ s k fault, st.delete s k fault = ⟨.error (.engineError e), st, []⟩) ∧
    (∀ s fault, st.clear s fault = ⟨.error (.engineError e), st, []⟩) ∧
    (∀ s ix q fault, st.getByIndex s ix q fault = ⟨.error (.engineError e), st, []⟩) ∧
    (∀ s fault, st.count s fault = ⟨.error (.engineError e), st, []⟩) ∧
    (∀ s k fault, st.existsKey s k fault = ⟨.error (.engineError e), st, []⟩) ∧
    (∀ s vs fault, st.bulkAdd s vs fault = ⟨.error (.engineError e), st, []⟩) ∧
    (∀ s vs fault, st.bulkUpdate s vs fault = ⟨.error (.engineError e), st, []⟩) ∧
    (∀ s fault, st.iterate s fault = ⟨.error (.engineError e), st, []⟩) ∧
    st.close = .error (.engineError e) := by
  refine ⟨fun _ _ _ => rfl,
    fun s v fault => mutate_open_failure st s fault _ e hdb,
    fun s k fault => readOp_open_failure st s fault _ e hdb,
    fun s fault => readOp_open_failure st s fault _ e hdb,
    fun s v fault => mutate_open_failure st s fault _ e hdb,
    fun s k fault => mutate_open_failure st s fault _ e hdb,
    fun s fault => mutate_open_failure st s fault _ e hdb,
    fun s ix q fault => readOp_open_failure st s fault _ e hdb,
    fun s fault => readOp_open_failure st s fault _ e hdb,
    fun s k fault => readOp_open_failure st s fault _ e hdb,
    fun s vs fault => mutate_open_failure st s fault _ e hdb,
    fun s vs fault => mutate_open_failure st s fault _ e hdb,
    fun s fault => readOp_open_failure st s fault _ e hdb,
    ?_⟩
  simp [Indexa.close, hdb]

/-- Witness for C5 at a concrete instance whose open failed. -/
theorem C5_connection_memoized_witness :
    idxFail.dbPromise = .error .versionErr ∧
    idxFail.add "users" alice none =
      ⟨.error (.engineError .versionErr), idxFail, []⟩ ∧
    idxFail.getAll "users" none =
      ⟨.error (.engineError .versionErr), idxFail, []⟩ :=
  ⟨rfl, (C5_connection_memoized idxFail .versionErr rfl).2.1 "users" alice none,
    (C5_connection_memoized idxFail .versionErr rfl).2.2.2.1 "users" none⟩

/-! ## Claim C8 — deleteDatabase after a failed open -/

/-- C8: `deleteDatabase` first awaits `close()`, which awaits the shared
connection promise; on an instance whose initial open failed with `e` it
rejects with that same raw failure and the engine's `deleteDatabase`
request is never issued (the issued flag is `false`): the database is not
deleted. -/
theorem C8_deleteDatabase_open_failure (st : Indexa) (e : EngErr) (b : Bool)
    (fault : Option EngErr) (hdb : st.dbPromise = .error e) :
    st.deleteDatabase b fault = (.error (.engineError e), false) := by
  simp [Indexa.deleteDatabase, Indexa.close, hdb]

/-- Witness for C8 at a concrete instance whose open failed. -/
theorem C8_deleteDatabase_open_failure_witness :
    idxFail.dbPromise = .error .versionErr ∧
    idxFail.deleteDatabase false none = (.error (.engineError .versionErr), false) :=
  ⟨rfl, C8_deleteDatabase_open_failure idxFail .versionErr false none rfl⟩

/-! ## Claim C1 — error propagation is raw, not wrapped -/

/-- C1 counterexample: on the one-record instance, adding a value whose
in-line key collides rejects — but with the raw engine ConstraintError
object itself, which is not a taxonomy wrapper, contradicting the claim
that the rejection is the engine error wrapped as a taxonomy kind. -/
theorem C1_wrapped_error_cex :
    (idx1.add "users" dupV none).result = .error (.engineError .constraint) ∧
    RejErr.isWrapped (.engineError .constraint) = false := by
  exact ⟨rfl, rfl⟩

/-- C1 amended: when the engine reports an error on the issued request
(injected fault `e`), every operation rejects with the engine's raw error
object, unwrapped; likewise an unobtainable index handle rejects with the
raw NotFoundError.  No taxonomy wrapping occurs anywhere in the code. -/
theorem C1_raw_error_passthrough (st : Indexa) (s : String) (db : DB) (os : ObjectStore)
    (e : EngErr) (hdb : st.dbPromise = .ok db) (hstore : db.findStore s = some os) :
    (∀ v, (st.add s v (some e)).result = .error (.engineError e)) ∧
    (∀ k, (st.get s k (some e)).result = .error (.engineError e)) ∧
    ((st.getAll s (some e)).result = .error (.engineError e)) ∧
    (∀ v, (st.update s v (some e)).result = .error (.engineError e)) ∧
    (∀ k, (st.delete s k (some e)).result = .error (.engineError e)) ∧
    ((st.clear s (some e)).result = .error (.engineError e)) ∧
    (∀ ix q, (st.getByIndex s ix q (some e)).result = .error (.engineError e)) ∧
    ((st.count s (some e)).result = .error (.engineError e)) ∧
    (∀ k, (st.existsKey s k (some e)).result = .error (.engineError e)) ∧
    (∀ vs, (st.bulkAdd s vs (some e)).result = .error (.engineError e)) ∧
    (∀ vs, (st.bulkUpdate s vs (some e)).result = .error (.engineError e)) ∧
    ((st.iterate s (some e)).result = .error (.engineError e)) ∧
    (∀ ix q, os.indexes.lookup ix = none →
      (st.getByIndex s ix q none).result = .error (.engineError .notFound)) := by
  refine ⟨fun v => congrArg MutOut.result (mutate_fault st s _ db os e hdb hstore),
    fun k => congrArg MutOut.result (readOp_fault st s _ db os e hdb hstore),
    congrArg MutOut.result (readOp_fault st s _ db os e hdb hstore),
    fun v => congrArg MutOut.result (mutate_fault st s _ db os e hdb hstore),
    fun k => congrArg MutOut.result (mutate_fault st s _ db os e hdb hstore),
    congrArg MutOut.result (mutate_fault st s _ db os e hdb hstore),
    fun ix q => congrArg MutOut.result (readOp_fault st s _ db os e hdb hstore),
    congrArg MutOut.result (readOp_fault st s _ db os e hdb hstore),
    fun k => congrArg MutOut.result (readOp_fault st s _ db os e hdb hstore),
    fun vs => congrArg MutOut.result (mutate_fault st s _ db os e hdb hstore),
    fun vs => congrArg MutOut.result (mutate_fault st s _ db os e hdb hstore),
    congrArg MutOut.result (readOp_fault st s _ db os e hdb hstore),
    fun ix q h => congrArg MutOut.result
      (readOp_request_error st s _ db os .notFound hdb hstore
        (by simp [ObjectStore.indexGetAll, h]))⟩

/-- Witness for the amended C1 at a concrete instance and injected I/O
fault. -/
theorem C1_raw_error_passthrough_witness :
    idx0.dbPromise = .ok db0 ∧ db0.findStore "users" = some usersStore0 ∧
    (idx0.add "users" alice (some .io)).result = .error (.engineError .io) ∧
    (idx0.getByIndex "users" "byName" (JVal.str "Alice") none).result =
      .error (.engineError .notFound) :=
  ⟨rfl, rfl,
    (C1_raw_error_passthrough idx0 "users" db0 usersStore0 .io rfl rfl).1 alice,
    (C1_raw_error_passthrough idx0 "users" db0 usersStore0 .io rfl rfl).2.2.2.2.2.2.2.2.2.2.2.2
      "byName" (JVal.str "Alice") rfl⟩

/-! ## Claim C2 — the snapshot re-read with zero listeners -/

/-- C2 counterexample: on an instance with zero registered listeners for
the store, a successful delete still performs one fresh getAll read in its
notification path (`notify` awaits `this.getAll` before consulting the
registry), contradicting the claim that no extra getAll is performed when
there are zero listeners. -/
theorem C2_zero_listener_read_cex :
    idx1.subsOf "users" = [] ∧
    (idx1.delete "users" 5 none).result = .ok () ∧
    totalNotifyReads (idx1.delete "users" 5 none) = 1 := by
  exact ⟨rfl, rfl, rfl⟩

/-- C2 amended: mutating operations on a store with zero registered
listeners still succeed and deliver to no listener, but the notification
path's fresh getAll re-read is performed unconditionally — exactly one
extra getAll per successful mutating operation, even with zero listeners
(and none when the operation fails). -/
theorem C2_unconditional_snapshot_read (st : Indexa) (s : String)
    (hsub : st.subsOf s = []) :
    (∀ v, totalNotifyReads (st.add s v none) =
        (if (st.add s v none).result.isOk then 1 else 0) ∧
      ∀ lg ∈ (st.add s v none).logs, lg.calls = []) ∧
    (∀ v, totalNotifyReads (st.update s v none) =
        (if (st.update s v none).result.isOk then 1 else 0) ∧
      ∀ lg ∈ (st.update s v none).logs, lg.calls = []) ∧
    (∀ k, totalNotifyReads (st.delete s k none) =
        (if (st.delete s k none).result.isOk then 1 else 0) ∧
      ∀ lg ∈ (st.delete s k none).logs, lg.calls = []) ∧
    (totalNotifyReads (st.clear s none) =
        (if (st.clear s none).result.isOk then 1 else 0) ∧
      ∀ lg ∈ (st.clear s none).logs, lg.calls = []) ∧
    (∀ vs, totalNotifyReads (st.bulkAdd s vs none) =
        (if (st.bulkAdd s vs none).result.isOk then 1 else 0) ∧
      ∀ lg ∈ (st.bulkAdd s vs none).logs, lg.calls = []) ∧
    (∀ vs, totalNotifyReads (st.bulkUpdate s vs none) =
        (if (st.bulkUpdate s vs none).result.isOk then 1 else 0) ∧
      ∀ lg ∈ (st.bulkUpdate s vs none).logs, lg.calls = []) :=
  ⟨fun v => ⟨mutate_totalReads st s none _, mutate_calls_empty st s none _ hsub⟩,
    fun v => ⟨mutate_totalReads st s none _, mutate_calls_empty st s none _ hsub⟩,
    fun k => ⟨mutate_totalReads st s none _, mutate_calls_empty st s none _ hsub⟩,
    ⟨mutate_totalReads st s none _, mutate_calls_empty st s none _ hsub⟩,
    fun vs => ⟨mutate_totalReads st s none _, mutate_calls_empty st s none _ hsub⟩,
    fun vs => ⟨mutate_totalReads st s none _, mutate_calls_empty st s none _ hsub⟩⟩

/-- Witness for the amended C2 at a concrete zero-listener instance. -/
theorem C2_unconditional_snapshot_read_witness :
    idx0.subsOf "users" = [] ∧
    totalNotifyReads (idx0.clear "users" none) =
      (if (idx0.clear "users" none).result.isOk then 1 else 0) :=
  ⟨rfl, ((C2_unconditional_snapshot_read idx0 "users" rfl).2.2.2.1).1⟩

/-! ## Claim C3 — listener fault isolation -/

/-- C3 counterexample: with a throwing first listener and a well-behaved
second listener registered for the store, a successful delete's
notification cycle invokes only the thrower — the `forEach` aborts, so
listener 2, registered after it, never receives the snapshot — even though
the delete's own promise still resolves.  This contradicts the claim that
every listener after the thrower is still invoked. -/
theorem C3_listener_isolation_cex :
    idxThrow.subsOf "users" = [⟨1, true⟩, ⟨2, false⟩] ∧
    (idxThrow.delete "users" 1 none).result = .ok () ∧
    ((idxThrow.delete "users" 1 none).logs.map NotifyLog.calls) = [[(1, [])]] := by
  exact ⟨rfl, rfl, rfl⟩

/-- C3 amended: during one notification cycle, deliveries stop at the first
throwing listener: the listeners registered before it and the thrower
itself are invoked with the fresh snapshot, the listeners after it are not
invoked at all; the exception still never propagates to the caller of the
triggering mutating operation, whose promise resolves normally. -/
theorem C3_delivery_stops_at_thrower (st : Indexa) (s : String) (pre post : List Listener)
    (t : Listener) (db : DB) (os : ObjectStore) (k : Nat)
    (hdb : st.dbPromise = .ok db) (hstore : db.findStore s = some os)
    (hsub : st.subsOf s = pre ++ t :: post)
    (hpre : ∀ l ∈ pre, l.throws = false) (ht : t.throws = true) :
    (st.delete s k none).result = .ok () ∧
    ((st.delete s k none).logs.map NotifyLog.calls) =
      [pre.map (fun l => (l.id, (os.deleteKey k).records.map Prod.snd)) ++
        [(t.id, (os.deleteKey k).records.map Prod.snd)]] := by
  have hmut : st.delete s k none =
      ⟨.ok (), { st with dbPromise := .ok (db.setStore s (os.deleteKey k)) },
        [Indexa.runNotify { st with dbPromise := .ok (db.setStore s (os.deleteKey k)) } s]⟩ :=
    mutate_ok st s _ db os () (os.deleteKey k) hdb hstore rfl
  refine ⟨by rw [hmut], ?_⟩
  rw [hmut]
  have hsub' : Indexa.subsOf
      { st with dbPromise := .ok (db.setStore s (os.deleteKey k)) } s = pre ++ t :: post :=
    hsub
  simp only [Indexa.runNotify, hsub', snapshotOf_setStore, List.map_cons, List.map_nil]
  rw [deliverAll_throw_split pre post t _ hpre ht]

/-- Witness for the amended C3 at the concrete two-listener instance whose
first listener throws. -/
theorem C3_delivery_stops_at_thrower_witness :
    idxThrow.subsOf "users" = [] ++ ⟨1, true⟩ :: [⟨2, false⟩] ∧
    ((idxThrow.delete "users" 5 none).logs.map NotifyLog.calls) =
      [[(1, (usersStore1.deleteKey 5).records.map Prod.snd)]] :=
  ⟨rfl,
    (C3_delivery_stops_at_thrower idxThrow "users" [] [⟨2, false⟩] ⟨1, true⟩ db1 usersStore1 5
      rfl rfl rfl (by intro l hl; simp at hl) rfl).2⟩

/-! ## Claim C9 — delete notifies even when it removed nothing -/

/-- C9: a delete of an absent key still succeeds as a no-op (the record set
is unchanged) and still triggers the full notification cycle: one fresh
getAll read, whose snapshot is delivered to every registered listener of
the store (here stated for non-throwing listeners, delivery order =
registration order). -/
theorem C9_delete_noop_still_notifies (st : Indexa) (s : String) (k : Nat) (db : DB)
    (os : ObjectStore) (hdb : st.dbPromise = .ok db) (hstore : db.findStore s = some os)
    (habsent : lookupKey k os.records = none)
    (hcalm : ∀ l ∈ st.subsOf s, l.throws = false) :
    (st.delete s k none).result = .ok () ∧
    ((st.delete s k none).post.getAll s none).result = .ok (os.records.map Prod.snd) ∧
    (st.delete s k none).logs =
      [⟨1, os.records.map Prod.snd,
        (st.subsOf s).map (fun l => (l.id, os.records.map Prod.snd))⟩] := by
  have hdel : os.deleteKey k = os := deleteKey_absent os k habsent
  have hmut : st.delete s k none =
      ⟨.ok (), { st with dbPromise := .ok (db.setStore s os) },
        [Indexa.runNotify { st with dbPromise := .ok (db.setStore s os) } s]⟩ := by
    have h := mutate_ok st s (fun o => .ok ((), o.deleteKey k)) db os () (os.deleteKey k)
      hdb hstore rfl
    rw [hdel] at h
    exact h
  refine ⟨by rw [hmut], ?_, ?_⟩
  · rw [hmut]
    exact congrArg MutOut.result
      (readOp_ok { st with dbPromise := .ok (db.setStore s os) } s
        (fun o => .ok (o.records.map Prod.snd)) (db.setStore s os) os
        (os.records.map Prod.snd) rfl (findStore_setStore db s os) rfl)
  · rw [hmut]
    have hsub' : Indexa.subsOf { st with dbPromise := .ok (db.setStore s os) } s
        = st.subsOf s := rfl
    simp only [Indexa.runNotify, hsub', snapshotOf_setStore]
    rw [deliverAll_no_throw _ _ hcalm]

/-- Witness for C9: deleting the absent key 5 on the one-record instance
with one listener still succeeds, removes nothing, and delivers the
unchanged snapshot to the listener. -/
theorem C9_delete_noop_still_notifies_witness :
    lookupKey 5 usersStore1.records = none ∧
    (idxCalm.delete "users" 5 none).result = .ok () ∧
    (idxCalm.delete "users" 5 none).logs =
      [⟨1, [aliceStored], [(7, [aliceStored])]⟩] := by
  have h := C9_delete_noop_still_notifies idxCalm "users" 5 db1 usersStore1 rfl rfl rfl
    (by decide)
  exact ⟨rfl, h.1, h.2.2⟩

/-! ## Claim C10 — duplicate registration and single removal -/

/-- C10: the registry permits duplicate registration of the same callback
reference: with the callback registered n+1 times, subscribing it again
leaves n+2 copies; each notification cycle invokes it once per copy (n+1
invocations, here for a non-throwing callback), including the cycle
triggered by an actual mutation; and one unsubscribe removes exactly one
occurrence, leaving n copies active. -/
theorem C10_duplicate_subscription (st : Indexa) (s : String) (c : Listener) (n : Nat)
    (hsub : st.subsOf s = List.replicate (n + 1) c) (hc : c.throws = false) :
    ((st.subscribe s c).1.subsOf s = List.replicate (n + 2) c) ∧
    ((st.runNotify s).calls = List.replicate (n + 1) (c.id, st.snapshotOf s)) ∧
    (∀ db os k, st.dbPromise = .ok db → db.findStore s = some os →
      ((st.delete s k none).logs.map (fun lg => lg.calls.map Prod.fst)) =
        [List.replicate (n + 1) c.id]) ∧
    ((st.unsubscribe s c).subsOf s = List.replicate n c) := by
  have hrep : ∀ l ∈ List.replicate (n + 1) c, l.throws = false := by
    intro l hl
    rw [List.eq_of_mem_replicate hl]
    exact hc
  refine ⟨?_, ?_, ?_, ?_⟩
  · show lookupSubs (pushSub st.subscribers s c) s = _
    rw [lookupSubs_pushSub]
    show st.subsOf s ++ [c] = _
    rw [hsub, ← List.replicate_succ']
  · show deliverAll (st.subsOf s) (st.snapshotOf s) = _
    rw [hsub, deliverAll_no_throw _ _ hrep, List.map_replicate]
  · intro db os k hdb hstore
    have hmut : st.delete s k none =
        ⟨.ok (), { st with dbPromise := .ok (db.setStore s (os.deleteKey k)) },
          [Indexa.runNotify { st with dbPromise := .ok (db.setStore s (os.deleteKey k)) } s]⟩ :=
      mutate_ok st s _ db os () (os.deleteKey k) hdb hstore rfl
    rw [hmut]
    have hsub' : Indexa.subsOf
        { st with dbPromise := .ok (db.setStore s (os.deleteKey k)) } s = st.subsOf s := rfl
    simp only [Indexa.runNotify, hsub', List.map_cons, List.map_nil]
    rw [hsub, deliverAll_no_throw _ _ hrep, List.map_replicate, List.map_replicate]
  · show lookupSubs (removeSub st.subscribers s c) s = _
    rw [lookupSubs_removeSub]
    show removeFirst c (st.subsOf s) = _
    rw [hsub, removeFirst_replicate]

/-- Witness for C10 at the concrete instance with listener 7 registered
twice. -/
theorem C10_duplicate_subscription_witness :
    idxDup.subsOf "users" = List.replicate 2 ⟨7, false⟩ ∧
    (idxDup.runNotify "users").calls = List.replicate 2 ((7 : Nat), [aliceStored]) ∧
    ((idxDup.delete "users" 5 none).logs.map (fun lg => lg.calls.map Prod.fst)) =
      [List.replicate 2 7] ∧
    (idxDup.unsubscribe "users" ⟨7, false⟩).subsOf "users" = List.replicate 1 ⟨7, false⟩ := by
  have h := C10_duplicate_subscription idxDup "users" ⟨7, false⟩ 1 rfl rfl
  exact ⟨rfl, h.2.1, h.2.2.1 db1 usersStore1 5 rfl rfl, h.2.2.2⟩

/-! ## Claim C4 — bulkAdd keys and single notification cycle -/

/-- C4: bulkAdd of key-less values into an auto-increment store with a
fresh generator resolves with the consecutive assigned keys, one per input
value and index-aligned with it, and triggers exactly one notification
cycle — a single log whose one fresh read delivers the post-bulk full
snapshot — not one cycle per added item. -/
theorem C4_bulkAdd_single_notification (st : Indexa) (s : String) (vs : List Record)
    (db : DB) (os : ObjectStore)
    (hdb : st.dbPromise = .ok db) (hstore : db.findStore s = some os)
    (hauto : os.config.autoIncrement = true)
    (hbound : ∀ k ∈ os.keys, k < os.nextKey)
    (hfresh : ∀ v ∈ vs, getField v os.config.keyPath = none) :
    (st.bulkAdd s vs none).result = .ok (List.range' os.nextKey vs.length) ∧
    (List.range' os.nextKey vs.length).length = vs.length ∧
    (st.bulkAdd s vs none).logs = [(st.bulkAdd s vs none).post.runNotify s] ∧
    ∀ lg ∈ (st.bulkAdd s vs none).logs,
      lg.reads = 1 ∧ lg.snapshot = (st.bulkAdd s vs none).post.snapshotOf s := by
  obtain ⟨osF, hF⟩ := bulkAddRecords_fresh vs os hauto hbound hfresh
  have hmut : st.bulkAdd s vs none =
      ⟨.ok (List.range' os.nextKey vs.length),
        { st with dbPromise := .ok (db.setStore s osF) },
        [Indexa.runNotify { st with dbPromise := .ok (db.setStore s osF) } s]⟩ :=
    mutate_ok st s _ db os _ osF hdb hstore hF
  refine ⟨by rw [hmut], by simp, by rw [hmut], ?_⟩
  rw [hmut]
  intro lg hlg
  simp only [List.mem_singleton] at hlg
  subst hlg
  exact ⟨rfl, rfl⟩

/-- Witness for C4: the spec §8 scenario — bulkAdd of two key-less values
into the fresh users store resolves with keys [1, 2] and triggers exactly
one notification cycle. -/
theorem C4_bulkAdd_single_notification_witness :
    (idx0.bulkAdd "users" [alice, bobV] none).result = .ok [1, 2] ∧
    (idx0.bulkAdd "users" [alice, bobV] none).logs.length = 1 := by
  have h := C4_bulkAdd_single_notification idx0 "users" [alice, bobV] db0 usersStore0
    rfl rfl rfl (by decide) (by decide)
  refine ⟨?_, ?_⟩
  · rw [h.1]
    rfl
  · rw [h.2.2.1]
    rfl

/-! ## Claim C6 — cursor iteration order and coverage -/

/-- C6: iterate invokes the callback once per record of the store — the
invocation trace lists each stored record exactly once, with keys in
strictly ascending order — and resolves after the cursor is exhausted; an
engine error on the cursor request rejects the promise with that error
instead. -/
theorem C6_iterate_visits_each_once (st : Indexa) (s : String) (db : DB)
    (os : ObjectStore)
    (hdb : st.dbPromise = .ok db) (hstore : db.findStore s = some os) (hwf : os.wf) :
    (st.iterate s none).result = .ok (os.records.map (fun p => (p.2, p.1))) ∧
    ((os.records.map (fun p => (p.2, p.1))).map Prod.snd).Pairwise (· < ·) ∧
    ((os.records.map (fun p => (p.2, p.1))).Nodup ∧
      ∀ p ∈ os.records, (p.2, p.1) ∈ os.records.map (fun p => (p.2, p.1))) ∧
    (∀ e, (st.iterate s (some e)).result = .error (.engineError e)) := by
  obtain ⟨hsorted, hbound⟩ := hwf
  have hkeys : (os.records.map (fun p => (p.2, p.1))).map Prod.snd
      = os.records.map Prod.fst := by
    rw [List.map_map]
    rfl
  have hnodupKeys : (os.records.map Prod.fst).Nodup :=
    hsorted.imp (fun h => Nat.ne_of_lt h)
  have hnodupRecs : os.records.Nodup := List.Nodup.of_map Prod.fst hnodupKeys
  have hswapInj : Function.Injective (fun p : Nat × Record => (p.2, p.1)) := by
    intro a b hab
    cases a
    cases b
    simp only [Prod.mk.injEq] at hab
    simp [hab.1, hab.2]
  have hnodupTrace : (os.records.map (fun p => (p.2, p.1))).Nodup :=
    hnodupRecs.map hswapInj
  refine ⟨?_, ?_, ?_, ?_⟩
  · exact congrArg MutOut.result
      (readOp_ok st s (fun o => .ok (o.records.map (fun p => (p.2, p.1)))) db os
        (os.records.map (fun p => (p.2, p.1))) hdb hstore rfl)
  · rw [hkeys]
    exact hsorted
  · exact ⟨hnodupTrace, fun p hp => List.mem_map_of_mem _ hp⟩
  · intro e
    exact congrArg MutOut.result (readOp_fault st s _ db os e hdb hstore)

/-- Witness for C6 on the one-record instance: the trace is exactly the one
stored record with its key, and an injected cursor fault rejects raw. -/
theorem C6_iterate_visits_each_once_witness :
    (idx1.iterate "users" none).result = .ok [(aliceStored, 1)] ∧
    (idx1.iterate "users" (some .io)).result = .error (.engineError .io) := by
  have h := C6_iterate_visits_each_once idx1 "users" db1 usersStore1 rfl rfl (by decide)
  exact ⟨by rw [h.1]; rfl, h.2.2.2 .io⟩

/-! ## Claim C7 — add/get round-trip -/

/-- C7 counterexample: the spec's own §8 scenario input — on the fresh
auto-increment users store, `add` of a value without its key resolves with
key 1 but `get(1)` returns the stored record with the generated key
injected at the key-path, which is not deep-equal to the added value.  The
round-trip as claimed fails for this valid (store, value) pair. -/
theorem C7_roundtrip_cex :
    (idx0.add "users" alice none).result = .ok 1 ∧
    ((idx0.add "users" alice none).post.get "users" 1 none).result =
      .ok (some aliceStored) ∧
    ¬ deepEqual aliceStored alice := by
  exact ⟨rfl, rfl, by decide⟩

/-- C7 amended: add then get with the resolved key returns exactly the
record the engine stored — the added value itself when it carried its
in-line key at the key-path (in which case the round-trip is deep-equal),
and otherwise the added value with the engine-assigned key injected at the
key-path, differing from the input exactly by that key field. -/
theorem C7_roundtrip_keyinjected (st : Indexa) (s : String) (v : Record) (k : Nat)
    (db : DB) (os os' : ObjectStore)
    (hdb : st.dbPromise = .ok db) (hstore : db.findStore s = some os)
    (hadd : os.addRecord v = .ok (k, os')) :
    (st.add s v none).result = .ok k ∧
    ((st.add s v none).post.get s k none).result = .ok (some (storedForm os.config v k)) ∧
    (getField v os.config.keyPath = some (JVal.num k) →
      storedForm os.config v k = v ∧ deepEqual (storedForm os.config v k) v) := by
  have hmut : st.add s v none =
      ⟨.ok k, { st with dbPromise := .ok (db.setStore s os') },
        [Indexa.runNotify { st with dbPromise := .ok (db.setStore s os') } s]⟩ :=
    mutate_ok st s _ db os k os' hdb hstore hadd
  refine ⟨by rw [hmut], ?_, ?_⟩
  · rw [hmut]
    have hget : ({ st with dbPromise := .ok (db.setStore s os') } : Indexa).get s k none =
        ⟨.ok (lookupKey k os'.records),
          { st with dbPromise := .ok (db.setStore s os') }, []⟩ :=
      readOp_ok { st with dbPromise := .ok (db.setStore s os') } s
        (fun o => .ok (lookupKey k o.records)) (db.setStore s os') os'
        (lookupKey k os'.records) rfl (findStore_setStore db s os') rfl
    show (({ st with dbPromise := .ok (db.setStore s os') } : Indexa).get s k none).result = _
    rw [hget]
    show Except.ok (lookupKey k os'.records) = _
    rw [addRecord_ok_records os v k os' hadd, lookupKey_insertSorted_self]
  · intro hf
    have hsf : storedForm os.config v k = v := by
      simp [storedForm, hf]
    refine ⟨hsf, ?_⟩
    rw [hsf]
    exact deepEqual_refl v

/-- Witness for the amended C7: adding a value that carries its in-line
key 5 round-trips deep-equal. -/
theorem C7_roundtrip_keyinjected_witness :
    (idx0.add "users" eveV none).result = .ok 5 ∧
    ((idx0.add "users" eveV none).post.get "users" 5 none).result = .ok (some eveV) ∧
    deepEqual eveV eveV := by
  have h := C7_roundtrip_keyinjected idx0 "users" eveV 5 db0 usersStore0 eveStore
    rfl rfl (by decide)
  refine ⟨h.1, ?_, (h.2.2 (by decide)).2⟩
  have hsf : storedForm usersStore0.config eveV 5 = eveV := (h.2.2 (by decide)).1
  rw [h.2.1, hsf]
